import Mathlib

/-!
Verification of the SOAP request core of `go-onvif` (`soap.go`).

The Go source is shallowly embedded:
* `SOAP` mirrors the request-descriptor struct (`soap.go` lines 22-34);
  `time.Time`/`time.Duration` are modelled as `Int` instants/offsets in
  nanoseconds, with the Go zero value `time.Time{}` modelled as `0` so that
  `t.IsZero()` becomes `t = 0`.
* external collaborators (the `crypto/sha1` hash, `encoding/base64`
  std-encoding, and `Time.UTC().Format(time.RFC3339)` of the std library,
  and the per-call effects `uuid.New().String()` and `time.Now()`) are passed
  in explicitly: hash/encoder/formatter in an `Ext` record, the fresh nonce
  and the clock reading as plain arguments.  Byte strings are modelled as
  `String`.
* the two `regexp.MustCompile(...).ReplaceAllString` calls
  (`>\s+<` -> `><`, then `\s+` -> ` `) are implemented as fuel-indexed
  structural scanners `replTagF`/`replWsF` over the character list; the fuel
  is the list length, so the definitions compute by kernel reduction.  RE2's
  class `\s` is `[\t\n\f\r ]` (`isSpace`).  A match of `>\s+<` is: a `>`,
  then at least one whitespace character, then `<`; replacement is leftmost,
  non-overlapping, resuming after the consumed `<` — exactly the recursion
  in `replTagF` (`matchWsLt` is the lookahead for `\s+<`).
* `SendRequest` (lines 37-97) is embedded as `sendRequest` returning the Go
  pair `(mxj.Map, error)` as `Option ValueMap × Option SendError`, one
  constructor of `SendError` per distinct failure stage; the `net/url`,
  `net/http`, digest-transport, `ioutil.ReadAll` and `mxj` collaborators are
  fields of a `NetEnv` record.
-/

namespace Onvif

/-- RE2's character class `\s`, i.e. `[\t\n\f\r ]`, used by both regexes in
`createRequest` (`soap.go` lines 133-134). -/
def isSpace (c : Char) : Bool :=
  c = ' ' || c = '\t' || c = '\n' || c = '\x0c' || c = '\r'

/-- Lookahead for the suffix `\s*<` of the pattern `>\s+<` after at least one
whitespace character has been seen: skip further whitespace, then require `<`;
returns the characters after the consumed `<`. -/
def skipToLt : List Char → Option (List Char)
  | [] => none
  | c :: rest => if c = '<' then some rest else if isSpace c then skipToLt rest else none

/-- Lookahead for `\s+<`: at least one whitespace character, then (after more
whitespace) a `<`.  Returns the characters after the consumed `<`. -/
def matchWsLt : List Char → Option (List Char)
  | [] => none
  | c :: rest => if isSpace c then skipToLt rest else none

theorem skipToLt_length : ∀ (l t : List Char), skipToLt l = some t → t.length < l.length := by
  intro l
  induction l with
  | nil => intro t h; simp [skipToLt] at h
  | cons c rest ih =>
    intro t h
    simp only [skipToLt] at h
    by_cases hc : c = '<'
    · rw [if_pos hc] at h
      injection h with h'
      subst h'
      simp
    · rw [if_neg hc] at h
      by_cases hs : isSpace c = true
      · rw [if_pos hs] at h
        exact Nat.lt_trans (ih t h) (by simp)
      · rw [if_neg hs] at h
        exact Option.noConfusion h

theorem matchWsLt_length : ∀ (l t : List Char), matchWsLt l = some t → t.length < l.length := by
  intro l t h
  cases l with
  | nil => simp [matchWsLt] at h
  | cons c rest =>
    simp only [matchWsLt] at h
    by_cases hs : isSpace c = true
    · rw [if_pos hs] at h
      exact Nat.lt_trans (skipToLt_length rest t h) (by simp)
    · rw [if_neg hs] at h
      exact Option.noConfusion h

theorem dropWhileSpace_length : ∀ (l : List Char),
    (l.dropWhile isSpace).length ≤ l.length := by
  intro l
  induction l with
  | nil => simp [List.dropWhile]
  | cons c rest ih =>
    simp only [List.dropWhile]
    cases isSpace c with
    | true => exact Nat.le_trans ih (by simp)
    | false => simp

/-- Fuel-indexed scanner implementing
`regexp.MustCompile(` followed by the pattern `>\s+<` and `).ReplaceAllString(request, "><")`
(`soap.go` line 133): at each `>`, if `\s+<` follows, the whole match is
replaced by `><` and scanning resumes after the `<`. -/
def replTagF : Nat → List Char → List Char
  | 0, l => l
  | _ + 1, [] => []
  | fuel + 1, c :: rest =>
    if c = '>' then
      match matchWsLt rest with
      | some tail => '>' :: '<' :: replTagF fuel tail
      | none => '>' :: replTagF fuel rest
    else c :: replTagF fuel rest

/-- Fuel-indexed scanner implementing
`regexp.MustCompile(` followed by the pattern `\s+` and `).ReplaceAllString(request, " ")`
(`soap.go` line 134): every maximal whitespace run becomes one space. -/
def replWsF : Nat → List Char → List Char
  | 0, l => l
  | _ + 1, [] => []
  | fuel + 1, c :: rest =>
    if isSpace c then ' ' :: replWsF fuel (rest.dropWhile isSpace)
    else c :: replWsF fuel rest

/-- First regex pass of `createRequest`. -/
def replTag (l : List Char) : List Char := replTagF l.length l

/-- Second regex pass of `createRequest`. -/
def replWs (l : List Char) : List Char := replWsF l.length l

/-- The whitespace clean-up of `createRequest` (`soap.go` lines 132-134):
first collapse whitespace between tags, then collapse remaining whitespace
runs to a single space. -/
def cleanRequest (s : String) : String := String.mk (replWs (replTag s.data))

theorem replTagF_congr : ∀ (f g : Nat) (l : List Char),
    l.length ≤ f → l.length ≤ g → replTagF f l = replTagF g l := by
  intro f
  induction f with
  | zero =>
    intro g l hf _
    have : l = [] := List.eq_nil_of_length_eq_zero (Nat.le_zero.mp hf)
    subst this
    cases g <;> rfl
  | succ f ih =>
    intro g l hf hg
    cases l with
    | nil => cases g <;> rfl
    | cons c rest =>
      cases g with
      | zero => simp at hg
      | succ g =>
        simp only [List.length_cons, Nat.succ_le_succ_iff] at hf hg
        simp only [replTagF]
        by_cases hc : c = '>'
        · rw [if_pos hc, if_pos hc]
          cases hm : matchWsLt rest with
          | some tail =>
            have hlt := matchWsLt_length rest tail hm
            show '>' :: '<' :: replTagF f tail = '>' :: '<' :: replTagF g tail
            rw [ih g tail (Nat.le_of_lt (Nat.lt_of_lt_of_le hlt hf))
              (Nat.le_of_lt (Nat.lt_of_lt_of_le hlt hg))]
          | none =>
            show '>' :: replTagF f rest = '>' :: replTagF g rest
            rw [ih g rest hf hg]
        · rw [if_neg hc, if_neg hc, ih g rest hf hg]

theorem replWsF_congr : ∀ (f g : Nat) (l : List Char),
    l.length ≤ f → l.length ≤ g → replWsF f l = replWsF g l := by
  intro f
  induction f with
  | zero =>
    intro g l hf _
    have : l = [] := List.eq_nil_of_length_eq_zero (Nat.le_zero.mp hf)
    subst this
    cases g <;> rfl
  | succ f ih =>
    intro g l hf hg
    cases l with
    | nil => cases g <;> rfl
    | cons c rest =>
      cases g with
      | zero => simp at hg
      | succ g =>
        simp only [List.length_cons, Nat.succ_le_succ_iff] at hf hg
        simp only [replWsF]
        by_cases hs : isSpace c = true
        · rw [if_pos hs, if_pos hs]
          have hd : (rest.dropWhile isSpace).length ≤ rest.length :=
            dropWhileSpace_length rest
          rw [ih g (rest.dropWhile isSpace) (Nat.le_trans hd hf) (Nat.le_trans hd hg)]
        · rw [if_neg hs, if_neg hs, ih g rest hf hg]

theorem replTag_nil : replTag [] = [] := rfl

theorem replTag_gt_some (rest tail : List Char) (h : matchWsLt rest = some tail) :
    replTag ('>' :: rest) = '>' :: '<' :: replTag tail := by
  unfold replTag
  simp only [List.length_cons, replTagF]
  rw [if_true, h]
  have := matchWsLt_length rest tail h
  show '>' :: '<' :: replTagF rest.length tail = '>' :: '<' :: replTagF tail.length tail
  rw [replTagF_congr rest.length tail.length tail (Nat.le_of_lt this) (Nat.le_refl _)]

theorem replTag_gt_none (rest : List Char) (h : matchWsLt rest = none) :
    replTag ('>' :: rest) = '>' :: replTag rest := by
  unfold replTag
  simp only [List.length_cons, replTagF]
  rw [if_true, h]

theorem replTag_ne (c : Char) (rest : List Char) (h : ¬ (c = '>')) :
    replTag (c :: rest) = c :: replTag rest := by
  unfold replTag
  simp only [List.length_cons, replTagF]
  rw [if_neg h]

theorem replWs_nil : replWs [] = [] := rfl

theorem replWs_space (c : Char) (rest : List Char) (h : isSpace c = true) :
    replWs (c :: rest) = ' ' :: replWs (rest.dropWhile isSpace) := by
  unfold replWs
  simp only [List.length_cons, replWsF]
  rw [if_pos h]
  rw [replWsF_congr rest.length (rest.dropWhile isSpace).length (rest.dropWhile isSpace)
    (dropWhileSpace_length rest) (Nat.le_refl _)]

theorem replWs_nospace (c : Char) (rest : List Char) (h : isSpace c = false) :
    replWs (c :: rest) = c :: replWs rest := by
  unfold replWs
  simp only [List.length_cons, replWsF]
  rw [if_neg (by simp [h])]

/-- `true` iff the list still contains a match of the pattern `>\s+<`. -/
def hasMatch : List Char → Bool
  | [] => false
  | c :: rest => (decide (c = '>') && (matchWsLt rest).isSome) || hasMatch rest

theorem isSpace_ne_gt (c : Char) (h : isSpace c = true) : ¬ (c = '>') := by
  simp only [isSpace, Bool.or_eq_true, decide_eq_true_eq] at h
  rcases h with ((((h | h) | h) | h) | h) <;> subst h <;> decide

theorem isSpace_ne_lt (c : Char) (h : isSpace c = true) : ¬ (c = '<') := by
  simp only [isSpace, Bool.or_eq_true, decide_eq_true_eq] at h
  rcases h with ((((h | h) | h) | h) | h) <;> subst h <;> decide

theorem replTag_cons_shape (c : Char) (rest : List Char) :
    ∃ x, replTag (c :: rest) = c :: x := by
  by_cases hc : c = '>'
  · subst hc
    cases hm : matchWsLt rest with
    | some tail => exact ⟨'<' :: replTag tail, replTag_gt_some rest tail hm⟩
    | none => exact ⟨replTag rest, replTag_gt_none rest hm⟩
  · exact ⟨replTag rest, replTag_ne c rest hc⟩

theorem skipToLt_replTag_none : ∀ (l : List Char),
    skipToLt l = none → skipToLt (replTag l) = none := by
  intro l
  induction l with
  | nil => intro _; rfl
  | cons c rest ih =>
    intro h
    simp only [skipToLt] at h
    by_cases hc : c = '<'
    · rw [if_pos hc] at h; exact Option.noConfusion h
    · rw [if_neg hc] at h
      by_cases hs : isSpace c = true
      · rw [if_pos hs] at h
        rw [replTag_ne c rest (isSpace_ne_gt c hs)]
        simp only [skipToLt]
        rw [if_neg hc, if_pos hs]
        exact ih h
      · obtain ⟨x, hx⟩ := replTag_cons_shape c rest
        rw [hx]
        simp only [skipToLt]
        rw [if_neg hc, if_neg hs]

theorem matchWsLt_replTag_none (l : List Char)
    (h : matchWsLt l = none) : matchWsLt (replTag l) = none := by
  cases l with
  | nil => rfl
  | cons c rest =>
    simp only [matchWsLt] at h
    by_cases hs : isSpace c = true
    · rw [if_pos hs] at h
      rw [replTag_ne c rest (isSpace_ne_gt c hs)]
      simp only [matchWsLt]
      rw [if_pos hs]
      exact skipToLt_replTag_none rest h
    · obtain ⟨x, hx⟩ := replTag_cons_shape c rest
      rw [hx]
      simp only [matchWsLt]
      rw [if_neg hs]

theorem hasMatch_replTag_aux : ∀ (n : Nat) (l : List Char),
    l.length ≤ n → hasMatch (replTag l) = false := by
  intro n
  induction n with
  | zero =>
    intro l hl
    have : l = [] := List.eq_nil_of_length_eq_zero (Nat.le_zero.mp hl)
    subst this
    rfl
  | succ n ih =>
    intro l hl
    cases l with
    | nil => rfl
    | cons c rest =>
      simp only [List.length_cons, Nat.succ_le_succ_iff] at hl
      by_cases hc : c = '>'
      · subst hc
        cases hm : matchWsLt rest with
        | some tail =>
          rw [replTag_gt_some rest tail hm]
          simp only [hasMatch, Bool.or_eq_false_iff, Bool.and_eq_false_iff]
          have htail : tail.length ≤ n :=
            Nat.le_of_lt (Nat.lt_of_lt_of_le (matchWsLt_length rest tail hm) hl)
          refine ⟨Or.inr ?_, Or.inl (by decide), ih tail htail⟩
          simp only [matchWsLt]
          rw [if_neg (by decide)]
          rfl
        | none =>
          rw [replTag_gt_none rest hm]
          simp only [hasMatch, Bool.or_eq_false_iff, Bool.and_eq_false_iff]
          refine ⟨Or.inr ?_, ih rest hl⟩
          rw [matchWsLt_replTag_none rest hm]
          rfl
      · rw [replTag_ne c rest hc]
        simp only [hasMatch, Bool.or_eq_false_iff, Bool.and_eq_false_iff]
        exact ⟨Or.inl (by simp [hc]), ih rest hl⟩

theorem hasMatch_replTag (l : List Char) : hasMatch (replTag l) = false :=
  hasMatch_replTag_aux l.length l (Nat.le_refl _)

theorem replTag_of_hasMatch_false : ∀ (l : List Char),
    hasMatch l = false → replTag l = l := by
  intro l
  induction l with
  | nil => intro _; rfl
  | cons c rest ih =>
    intro h
    simp only [hasMatch, Bool.or_eq_false_iff, Bool.and_eq_false_iff] at h
    obtain ⟨h1, h2⟩ := h
    by_cases hc : c = '>'
    · subst hc
      have hm : matchWsLt rest = none := by
        rcases h1 with h1 | h1
        · simp at h1
        · cases hm : matchWsLt rest with
          | some tail => rw [hm] at h1; simp at h1
          | none => rfl
      rw [replTag_gt_none rest hm, ih h2]
    · rw [replTag_ne c rest hc, ih h2]

theorem hasMatch_dropWhile : ∀ (l : List Char),
    hasMatch (l.dropWhile isSpace) = hasMatch l := by
  intro l
  induction l with
  | nil => rfl
  | cons c rest ih =>
    simp only [List.dropWhile]
    cases hs : isSpace c with
    | true =>
      rw [ih]
      simp only [hasMatch, Bool.or_eq_false_iff]
      have : decide (c = '>') = false := by simp [isSpace_ne_gt c hs]
      rw [this]
      simp
    | false => rfl

theorem skipToLt_dropWhile : ∀ (l : List Char),
    skipToLt (l.dropWhile isSpace) = skipToLt l := by
  intro l
  induction l with
  | nil => rfl
  | cons c rest ih =>
    simp only [List.dropWhile]
    cases hs : isSpace c with
    | true =>
      rw [ih]
      simp only [skipToLt]
      rw [if_neg (isSpace_ne_lt c hs), if_pos hs]
    | false => rfl

theorem skipToLt_replWs_none : ∀ (n : Nat) (l : List Char),
    l.length ≤ n → skipToLt l = none → skipToLt (replWs l) = none := by
  intro n
  induction n with
  | zero =>
    intro l hl _
    have : l = [] := List.eq_nil_of_length_eq_zero (Nat.le_zero.mp hl)
    subst this
    rfl
  | succ n ih =>
    intro l hl h
    cases l with
    | nil => rfl
    | cons c rest =>
      simp only [List.length_cons, Nat.succ_le_succ_iff] at hl
      simp only [skipToLt] at h
      by_cases hc : c = '<'
      · rw [if_pos hc] at h; exact Option.noConfusion h
      · rw [if_neg hc] at h
        by_cases hs : isSpace c = true
        · rw [if_pos hs] at h
          rw [replWs_space c rest hs]
          simp only [skipToLt]
          rw [if_neg (by decide), if_pos (by decide)]
          have hlen : (rest.dropWhile isSpace).length ≤ n :=
            Nat.le_trans (dropWhileSpace_length rest) hl
          have hnone : skipToLt (rest.dropWhile isSpace) = none := by
            rw [skipToLt_dropWhile rest]; exact h
          exact ih (rest.dropWhile isSpace) hlen hnone
        · rw [replWs_nospace c rest (by simpa using hs)]
          simp only [skipToLt]
          rw [if_neg hc, if_neg hs]

theorem matchWsLt_replWs_none (l : List Char)
    (h : matchWsLt l = none) : matchWsLt (replWs l) = none := by
  cases l with
  | nil => rfl
  | cons c rest =>
    simp only [matchWsLt] at h
    by_cases hs : isSpace c = true
    · rw [if_pos hs] at h
      rw [replWs_space c rest hs]
      simp only [matchWsLt]
      rw [if_pos (by decide)]
      have hnone : skipToLt (rest.dropWhile isSpace) = none := by
        rw [skipToLt_dropWhile rest]; exact h
      exact skipToLt_replWs_none (rest.dropWhile isSpace).length
        (rest.dropWhile isSpace) (Nat.le_refl _) hnone
    · rw [replWs_nospace c rest (by simpa using hs)]
      simp only [matchWsLt]
      rw [if_neg hs]

theorem hasMatch_replWs_aux : ∀ (n : Nat) (l : List Char),
    l.length ≤ n → hasMatch l = false → hasMatch (replWs l) = false := by
  intro n
  induction n with
  | zero =>
    intro l hl _
    have : l = [] := List.eq_nil_of_length_eq_zero (Nat.le_zero.mp hl)
    subst this
    rfl
  | succ n ih =>
    intro l hl h
    cases l with
    | nil => rfl
    | cons c rest =>
      simp only [List.length_cons, Nat.succ_le_succ_iff] at hl
      simp only [hasMatch, Bool.or_eq_false_iff, Bool.and_eq_false_iff] at h
      obtain ⟨h1, h2⟩ := h
      by_cases hs : isSpace c = true
      · rw [replWs_space c rest hs]
        simp only [hasMatch, Bool.or_eq_false_iff, Bool.and_eq_false_iff]
        refine ⟨Or.inl (by decide), ?_⟩
        have hlen : (rest.dropWhile isSpace).length ≤ n :=
          Nat.le_trans (dropWhileSpace_length rest) hl
        have hrest : hasMatch (rest.dropWhile isSpace) = false := by
          rw [hasMatch_dropWhile rest]; exact h2
        exact ih (rest.dropWhile isSpace) hlen hrest
      · rw [replWs_nospace c rest (by simpa using hs)]
        simp only [hasMatch, Bool.or_eq_false_iff, Bool.and_eq_false_iff]
        refine ⟨?_, ih rest hl h2⟩
        by_cases hc : c = '>'
        · refine Or.inr ?_
          have hm : matchWsLt rest = none := by
            rcases h1 with h1 | h1
            · rw [hc] at h1; simp at h1
            · cases hm : matchWsLt rest with
              | some tail => rw [hm] at h1; simp at h1
              | none => rfl
          rw [matchWsLt_replWs_none rest hm]
          rfl
        · exact Or.inl (by simp [hc])

theorem dropWhileSpace_shape : ∀ (l : List Char),
    l.dropWhile isSpace = [] ∨
      ∃ c rest, l.dropWhile isSpace = c :: rest ∧ isSpace c = false := by
  intro l
  induction l with
  | nil => exact Or.inl rfl
  | cons c rest ih =>
    simp only [List.dropWhile]
    cases hs : isSpace c with
    | true => exact ih
    | false => exact Or.inr ⟨c, rest, rfl, hs⟩

theorem dropWhileSpace_replWs_dropWhileSpace (l : List Char) :
    (replWs (l.dropWhile isSpace)).dropWhile isSpace = replWs (l.dropWhile isSpace) := by
  rcases dropWhileSpace_shape l with h | ⟨c, rest, h, hc⟩
  · rw [h]; rfl
  · rw [h, replWs_nospace c rest hc]
    simp only [List.dropWhile]
    rw [hc]

theorem replWs_replWs_aux : ∀ (n : Nat) (l : List Char),
    l.length ≤ n → replWs (replWs l) = replWs l := by
  intro n
  induction n with
  | zero =>
    intro l hl
    have : l = [] := List.eq_nil_of_length_eq_zero (Nat.le_zero.mp hl)
    subst this
    rfl
  | succ n ih =>
    intro l hl
    cases l with
    | nil => rfl
    | cons c rest =>
      simp only [List.length_cons, Nat.succ_le_succ_iff] at hl
      by_cases hs : isSpace c = true
      · rw [replWs_space c rest hs, replWs_space ' ' _ (by decide),
          dropWhileSpace_replWs_dropWhileSpace rest]
        have hlen : (rest.dropWhile isSpace).length ≤ n :=
          Nat.le_trans (dropWhileSpace_length rest) hl
        rw [ih (rest.dropWhile isSpace) hlen]
      · have hs' : isSpace c = false := by simpa using hs
        rw [replWs_nospace c rest hs', replWs_nospace c _ hs', ih rest hl]

theorem replWs_replWs (l : List Char) : replWs (replWs l) = replWs l :=
  replWs_replWs_aux l.length l (Nat.le_refl _)

theorem stringAppendAssoc (a b c : String) : a ++ b ++ c = a ++ (b ++ c) := by
  cases a with
  | mk la =>
    cases b with
    | mk lb =>
      cases c with
      | mk lc =>
        show String.mk (la ++ lb ++ lc) = String.mk (la ++ (lb ++ lc))
        rw [List.append_assoc]

/-- Go `time.Time`, modelled as an instant (nanoseconds, `Int`); the zero
value `time.Time{}` is `0`, so `t.IsZero()` is `t = 0` and `t.Add d` is
`t + d`.  `t.UTC()` does not change the instant (only the printing
location), so it is absorbed into the formatter `Ext.utcFormatRFC3339`. -/
abbrev GoTime := Int

/-- Go `time.Duration` (nanoseconds). -/
abbrev GoDuration := Int

/-- The request descriptor: the `SOAP` struct of `soap.go` lines 22-34. -/
structure SOAP where
  Body : String
  XMLNs : List String
  User : String
  Password : String
  TokenAge : GoDuration
  Action : String
  NoDebug : Bool
  CameraTime : GoTime

/-- External pure collaborators of the token generator, all from the Go
standard library and faithful only as uninterpreted functions:
`sha1` is `crypto/sha1` (`sha.Write(token); sha.Sum(nil)`, a byte string in,
20 digest bytes out, both modelled as `String`); `b64` is
`base64.StdEncoding.EncodeToString` on the bytes of its argument;
`utcFormatRFC3339 t` is `t.UTC().Format(time.RFC3339)`. -/
structure Ext where
  sha1 : String → String
  b64 : String → String
  utcFormatRFC3339 : GoTime → String

/-- Timestamp selection of `createUserToken` (`soap.go` lines 143-149):
`CameraTime.Add(TokenAge).UTC().Format(time.RFC3339)` when
`!soap.CameraTime.IsZero()`, else `time.Now().Add(TokenAge).UTC().Format(time.RFC3339)`;
`now` is the `time.Now()` reading of this invocation. -/
def tokenTimestamp (ext : Ext) (now : GoTime) (soap : SOAP) : String :=
  if soap.CameraTime ≠ 0 then ext.utcFormatRFC3339 (soap.CameraTime + soap.TokenAge)
  else ext.utcFormatRFC3339 (now + soap.TokenAge)

/-- Literal scaffolding of the Security header (`soap.go` lines 158-165),
byte-for-byte from the Go raw string: up to the `Username` content. -/
def secOpen : String :=
  "<Security s:mustUnderstand=\"1\" xmlns=\"http://docs.oasis-open.org/wss/2004/01/oasis-200401-wss-wssecurity-secext-1.0.xsd\">\n  \t\t<UsernameToken>\n    \t\t<Username>"

/-- Between the `Username` content and the `Password` content. -/
def secAfterUser : String :=
  "</Username>\n    \t\t<Password Type=\"http://docs.oasis-open.org/wss/2004/01/oasis-200401-wss-username-token-profile-1.0#PasswordDigest\">"

/-- Between the `Password` content and the `Nonce` content. -/
def secAfterDigest : String :=
  "</Password>\n    \t\t<Nonce EncodingType=\"http://docs.oasis-open.org/wss/2004/01/oasis-200401-wss-soap-message-security-1.0#Base64Binary\">"

/-- Between the `Nonce` content and the `Created` content. -/
def secAfterNonce : String :=
  "</Nonce>\n    \t\t<Created xmlns=\"http://docs.oasis-open.org/wss/2004/01/oasis-200401-wss-wssecurity-utility-1.0.xsd\">"

/-- After the `Created` content, closing the Security header. -/
def secClose : String :=
  "</Created>\n\t\t</UsernameToken>\n\t</Security>"

/-- `createUserToken` (`soap.go` lines 139-166).  `nonce` is the
`uuid.New().String()` of this invocation; `now` is the `time.Now()` reading.
`nonce64` is the base64 of the raw nonce bytes (line 141); `token` is
`string(nonce) + timestamp + soap.Password` (line 151); the digest is the
base64 of the SHA1 of `token` (lines 153-156). -/
def createUserToken (ext : Ext) (nonce : String) (now : GoTime) (soap : SOAP) : String :=
  let nonce64 := ext.b64 nonce
  let timestamp := tokenTimestamp ext now soap
  let token := nonce ++ timestamp ++ soap.Password
  let shaDigest64 := ext.b64 (ext.sha1 token)
  secOpen ++ soap.User ++ secAfterUser ++ shaDigest64 ++ secAfterDigest ++
    nonce64 ++ secAfterNonce ++ timestamp ++ secClose

/-- The `<Action>` header element (`soap.go` lines 115-116), byte-for-byte
from the Go raw string (newline, seven tabs and three spaces inside the
opening tag). -/
def actionXml (a : String) : String :=
  "<Action mustUnderstand=\"1\"\n\t\t\t\t\t\t\t   xmlns=\"http://www.w3.org/2005/08/addressing\">" ++
    a ++ "</Action>"

/-- XML declaration, envelope-open tag, the caller-supplied namespace
declarations appended in list order, and the closing `>` of the open tag
(`soap.go` lines 101-108). -/
def envelopeHead (soap : SOAP) : String :=
  (soap.XMLNs.foldl (fun r ns => r ++ " " ++ ns)
    ("<?xml version=\"1.0\" encoding=\"UTF-8\"?>" ++
      "<s:Envelope xmlns:s=\"http://www.w3.org/2003/05/soap-envelope\"")) ++ ">"

/-- The value of `request` accumulated by `createRequest` just before the
body is appended (`soap.go` lines 101-124): declaration, envelope-open tag,
and the optional header block (`<Action>` if `soap.Action` is set, then the
Security token if `soap.User` is set). -/
def envelopeBeforeBody (ext : Ext) (nonce : String) (now : GoTime) (soap : SOAP) : String :=
  let request := envelopeHead soap
  if soap.Action ≠ "" ∨ soap.User ≠ "" then
    let r := request ++ "<s:Header>"
    let r := if soap.Action ≠ "" then r ++ actionXml soap.Action else r
    let r := if soap.User ≠ "" then r ++ createUserToken ext nonce now soap else r
    r ++ "</s:Header>"
  else request

/-- `createRequest` before the two regex clean-up passes
(`soap.go` lines 99-130): the pre-body prefix, then
`"<s:Body>" + soap.Body + "</s:Body>"` (line 127) and the envelope close
tag (line 130). -/
def createRequestRaw (ext : Ext) (nonce : String) (now : GoTime) (soap : SOAP) : String :=
  envelopeBeforeBody ext nonce now soap ++ "<s:Body>" ++ soap.Body ++ "</s:Body>" ++
    "</s:Envelope>"

/-- `createRequest` (`soap.go` lines 99-137): the raw envelope followed by
the two whitespace clean-up passes (lines 132-136). -/
def createRequest (ext : Ext) (nonce : String) (now : GoTime) (soap : SOAP) : String :=
  cleanRequest (createRequestRaw ext nonce now soap)

theorem createRequestRaw_noUser_noAction (ext : Ext) (nonce : String) (now : GoTime)
    (soap : SOAP) (ha : soap.Action = "") (hu : soap.User = "") :
    createRequestRaw ext nonce now soap =
      envelopeHead soap ++ "<s:Body>" ++ soap.Body ++ "</s:Body>" ++ "</s:Envelope>" := by
  unfold createRequestRaw envelopeBeforeBody
  dsimp only
  rw [if_neg (fun h => h.elim (fun hne => hne ha) (fun hne => hne hu))]

theorem createRequestRaw_noUser_action (ext : Ext) (nonce : String) (now : GoTime)
    (soap : SOAP) (ha : soap.Action ≠ "") (hu : soap.User = "") :
    createRequestRaw ext nonce now soap =
      envelopeHead soap ++ "<s:Header>" ++ actionXml soap.Action ++ "</s:Header>" ++
        "<s:Body>" ++ soap.Body ++ "</s:Body>" ++ "</s:Envelope>" := by
  unfold createRequestRaw envelopeBeforeBody
  dsimp only
  rw [if_pos (Or.inl ha), if_pos ha, if_neg (fun hne => hne hu)]

theorem createRequestRaw_user_noAction (ext : Ext) (nonce : String) (now : GoTime)
    (soap : SOAP) (ha : soap.Action = "") (hu : soap.User ≠ "") :
    createRequestRaw ext nonce now soap =
      envelopeHead soap ++ "<s:Header>" ++ createUserToken ext nonce now soap ++
        "</s:Header>" ++ "<s:Body>" ++ soap.Body ++ "</s:Body>" ++ "</s:Envelope>" := by
  unfold createRequestRaw envelopeBeforeBody
  dsimp only
  rw [if_pos (Or.inr hu), if_pos hu, if_neg (fun hne => hne ha)]

theorem createRequestRaw_user_action (ext : Ext) (nonce : String) (now : GoTime)
    (soap : SOAP) (ha : soap.Action ≠ "") (hu : soap.User ≠ "") :
    createRequestRaw ext nonce now soap =
      envelopeHead soap ++ "<s:Header>" ++ actionXml soap.Action ++
        createUserToken ext nonce now soap ++ "</s:Header>" ++
        "<s:Body>" ++ soap.Body ++ "</s:Body>" ++ "</s:Envelope>" := by
  unfold createRequestRaw envelopeBeforeBody
  dsimp only
  rw [if_pos (Or.inl ha), if_pos ha, if_pos hu]

/-- The parsed response of the external `mxj` library (`mxj.Map`), reduced to
what `SendRequest` uses of it: `ValueForPathString`, a total lookup from a
dotted element path to the string at that path (`""` when absent — the Go
code ignores the accompanying error and tests the string for emptiness). -/
abbrev ValueMap := String → String

/-- The `net/url` `URL` value, reduced to what `SendRequest` does with it:
carry an optional user-info (`url.UserPassword`) next to whatever
`url.Parse` produced. -/
structure GoURL where
  parsed : String
  userinfo : Option (String × String)

/-- The `net/http` request, reduced to what `SendRequest` sets on it. -/
structure HTTPReq where
  method : String
  url : String
  body : String
  headers : List (String × String)

/-- `req.Header.Set("Content-Type", "application/soap+xml")` and
`req.Header.Set("Charset", "utf-8")` (`soap.go` lines 58-59). -/
def setSOAPHeaders (req : HTTPReq) : HTTPReq :=
  { req with headers := req.headers ++ [("Content-Type", "application/soap+xml"), ("Charset", "utf-8")] }

/-- The error result of `SendRequest`, one constructor per `return nil, err`
site, labelled by the failing stage (the spec's taxonomy InvalidEndpoint /
TransportError / ReadError / MalformedXML / SoapFault; `buildRequest` is the
`http.NewRequest` failure site of line 54, which the spec does not name). -/
inductive SendError where
  | invalidEndpoint (msg : String)
  | buildRequest (msg : String)
  | transport (msg : String)
  | readBody (msg : String)
  | malformedXML (msg : String)
  | soapFault (msg : String)
deriving DecidableEq

/-- External effectful collaborators of `SendRequest`: `url.Parse`,
`URL.String()`, `http.NewRequest` (method, url, body), the digest transport
`digest.NewTransport(user, password).RoundTrip`, `ioutil.ReadAll` on the
response body, and `mxj.NewMapXml`.  Each fallible call is an `Except`;
`Resp` is the transport's response type. -/
structure NetEnv (Resp : Type) where
  parseURL : String → Except String GoURL
  urlString : GoURL → String
  newRequest : String → String → String → Except String HTTPReq
  roundTrip : String → String → HTTPReq → Except String Resp
  readAll : Resp → Except String String
  parseXML : String → Except String ValueMap

/-- Fault classification at the end of `SendRequest` (`soap.go` lines
85-96): the SOAP 1.2 path first, then the SOAP 1.1 path, else success. -/
def faultCheck (mapXML : ValueMap) : Option ValueMap × Option SendError :=
  let fault := mapXML "Envelope.Body.Fault.Reason.Text.#text"
  if fault ≠ "" then (none, some (SendError.soapFault fault))
  else
    let fault := mapXML "Envelope.Body.Fault.faultstring"
    if fault ≠ "" then (none, some (SendError.soapFault fault))
    else (some mapXML, none)

/-- `SendRequest` (`soap.go` lines 37-97).  The Go pair `(mxj.Map, error)`
is the pair `Option ValueMap × Option SendError`; each `return nil, err`
becomes `(none, some e)` and the success return `(mapXML, nil)` becomes
`(some mapXML, none)`.  The `glog` debug traces (lines 49-51 and 75-77) have
no effect on the result and are not modelled. -/
def sendRequest {Resp : Type} (env : NetEnv Resp) (ext : Ext) (nonce : String)
    (now : GoTime) (soap : SOAP) (xaddr : String) :
    Option ValueMap × Option SendError :=
  let request := createRequest ext nonce now soap
  match env.parseURL xaddr with
  | Except.error e => (none, some (SendError.invalidEndpoint e))
  | Except.ok urlXAddr =>
    let urlXAddr :=
      if soap.User ≠ "" then { urlXAddr with userinfo := some (soap.User, soap.Password) }
      else urlXAddr
    match env.newRequest "POST" (env.urlString urlXAddr) request with
    | Except.error e => (none, some (SendError.buildRequest e))
    | Except.ok req =>
      let req := setSOAPHeaders req
      match env.roundTrip soap.User soap.Password req with
      | Except.error e => (none, some (SendError.transport e))
      | Except.ok resp =>
        match env.readAll resp with
        | Except.error e => (none, some (SendError.readBody e))
        | Except.ok responseBody =>
          match env.parseXML responseBody with
          | Except.error e => (none, some (SendError.malformedXML e))
          | Except.ok mapXML => faultCheck mapXML

/-- `subAt p l` is `true` iff `p` is an initial segment of `l`. -/
def subAt : List Char → List Char → Bool
  | [], _ => true
  | _ :: _, [] => false
  | p :: ps, c :: cs => p = c && subAt ps cs

/-- `hasSub p l` is `true` iff `p` occurs contiguously inside `l`. -/
def hasSub (p : List Char) : List Char → Bool
  | [] => subAt p []
  | c :: cs => subAt p (c :: cs) || hasSub p cs

/-! Concrete sample values used by witnesses and counterexamples. -/

/-- A concrete `Ext` instantiation for witnesses (the theorems hold for
every `Ext`, so trivial collaborators suffice). -/
def extTrivial : Ext :=
  { sha1 := fun _ => "", b64 := fun s => s, utcFormatRFC3339 := fun _ => "" }

/-- Descriptor with no credentials and no action. -/
def soapPlain : SOAP :=
  { Body := "<tds:GetDeviceInformation/>",
    XMLNs := ["xmlns:tds=\"http://www.onvif.org/ver10/device/wsdl\""],
    User := "", Password := "", TokenAge := 0, Action := "", NoDebug := false,
    CameraTime := 0 }

/-- Descriptor with an action but no credentials. -/
def soapActionOnly : SOAP :=
  { Body := "<b/>", XMLNs := [], User := "", Password := "", TokenAge := 0,
    Action := "http://www.onvif.org/ver10/device/wsdl/GetSystemDateAndTime",
    NoDebug := true, CameraTime := 0 }

/-- Descriptor with credentials but no action. -/
def soapAuth : SOAP :=
  { Body := "<b/>", XMLNs := [], User := "admin", Password := "pass",
    TokenAge := 0, Action := "", NoDebug := true, CameraTime := 0 }

/-- Descriptor with both credentials and an action. -/
def soapAuthAction : SOAP :=
  { Body := "<b/>", XMLNs := [], User := "admin", Password := "pass",
    TokenAge := 10, Action := "http://www.onvif.org/action", NoDebug := true,
    CameraTime := 5 }

/-- Parsed response populating both recognized fault paths. -/
def mapBoth : ValueMap := fun p =>
  if p = "Envelope.Body.Fault.Reason.Text.#text" then "X"
  else if p = "Envelope.Body.Fault.faultstring" then "Y" else ""

/-- Parsed response populating only the SOAP 1.1 fault path. -/
def mapFaultstring : ValueMap := fun p =>
  if p = "Envelope.Body.Fault.faultstring" then "Y" else ""

/-- Parsed response populating neither fault path. -/
def mapClean : ValueMap := fun _ => ""

/-- A `NetEnv` whose `url.Parse` fails and whose remaining collaborators are
arbitrary. -/
def envFail : NetEnv Unit :=
  { parseURL := fun _ => Except.error "parse error",
    urlString := fun _ => "",
    newRequest := fun _ _ _ => Except.error "",
    roundTrip := fun _ _ _ => Except.error "",
    readAll := fun _ => Except.error "",
    parseXML := fun _ => Except.error "" }

/-- Descriptor whose body contains a run of two spaces. -/
def soapTwoSpace : SOAP :=
  { Body := "a  b", XMLNs := [], User := "", Password := "", TokenAge := 0,
    Action := "", NoDebug := true, CameraTime := 0 }

/-! The claims. -/

/-- C1: for every descriptor with non-empty username, the raw envelope
contains the Security header, whose Password content (the digest) equals
`base64 (SHA1 (raw nonce bytes ++ timestamp string ++ password))` where the
raw nonce is exactly the value whose base64 sits in the same envelope's
Nonce element and the timestamp is exactly the Created element's content
(`soap.go` lines 139-166: `token := string(nonce) + timestamp +
soap.Password`, then SHA1 and base64). -/
theorem c1_digest_roundtrip (ext : Ext) (nonce : String) (now : GoTime) (soap : SOAP)
    (hu : soap.User ≠ "") :
    ∃ pre post nonce64 timestamp digest rawNonce,
      createRequestRaw ext nonce now soap =
        pre ++ (secOpen ++ soap.User ++ secAfterUser ++ digest ++ secAfterDigest ++
          nonce64 ++ secAfterNonce ++ timestamp ++ secClose) ++ post
      ∧ nonce64 = ext.b64 rawNonce
      ∧ digest = ext.b64 (ext.sha1 (rawNonce ++ timestamp ++ soap.Password)) := by
  by_cases ha : soap.Action = ""
  · refine ⟨envelopeHead soap ++ "<s:Header>",
      "</s:Header>" ++ "<s:Body>" ++ soap.Body ++ "</s:Body>" ++ "</s:Envelope>",
      ext.b64 nonce, tokenTimestamp ext now soap,
      ext.b64 (ext.sha1 (nonce ++ tokenTimestamp ext now soap ++ soap.Password)),
      nonce, ?_, rfl, rfl⟩
    rw [createRequestRaw_user_noAction ext nonce now soap ha hu]
    simp only [createUserToken, stringAppendAssoc]
  · refine ⟨envelopeHead soap ++ "<s:Header>" ++ actionXml soap.Action,
      "</s:Header>" ++ "<s:Body>" ++ soap.Body ++ "</s:Body>" ++ "</s:Envelope>",
      ext.b64 nonce, tokenTimestamp ext now soap,
      ext.b64 (ext.sha1 (nonce ++ tokenTimestamp ext now soap ++ soap.Password)),
      nonce, ?_, rfl, rfl⟩
    rw [createRequestRaw_user_action ext nonce now soap ha hu]
    simp only [createUserToken, stringAppendAssoc]

/-- Witness for C1 at a concrete descriptor. -/
theorem c1_digest_roundtrip_witness :
    ∃ pre post nonce64 timestamp digest rawNonce,
      createRequestRaw extTrivial "uuid-1234" 7 soapAuth =
        pre ++ (secOpen ++ soapAuth.User ++ secAfterUser ++ digest ++ secAfterDigest ++
          nonce64 ++ secAfterNonce ++ timestamp ++ secClose) ++ post
      ∧ nonce64 = extTrivial.b64 rawNonce
      ∧ digest = extTrivial.b64 (extTrivial.sha1 (rawNonce ++ timestamp ++ soapAuth.Password)) :=
  c1_digest_roundtrip extTrivial "uuid-1234" 7 soapAuth (by decide)

/-- C2: the timestamp placed in the Created element is
`cameraTime + tokenAge` when `cameraTime` is non-zero and `now + tokenAge`
when it is the zero value, passed through `.UTC().Format(time.RFC3339)`
(modelled by `Ext.utcFormatRFC3339`); and `createUserToken` embeds exactly
this string as the Created content (`soap.go` lines 143-149 and 163). -/
theorem c2_timestamp (ext : Ext) (nonce : String) (now : GoTime) (soap : SOAP) :
    tokenTimestamp ext now soap =
      ext.utcFormatRFC3339
        ((if soap.CameraTime ≠ 0 then soap.CameraTime else now) + soap.TokenAge)
    ∧ createUserToken ext nonce now soap =
      secOpen ++ soap.User ++ secAfterUser ++
        ext.b64 (ext.sha1 (nonce ++ tokenTimestamp ext now soap ++ soap.Password)) ++
        secAfterDigest ++ ext.b64 nonce ++ secAfterNonce ++
        tokenTimestamp ext now soap ++ secClose := by
  constructor
  · by_cases h : soap.CameraTime ≠ 0 <;> simp [tokenTimestamp, h]
  · rfl

/-- C3: fault classification checks the SOAP 1.2 path
`Envelope.Body.Fault.Reason.Text.#text` first and fails with its message
when non-empty (so it wins when both paths are populated); else the SOAP 1.1
path `Envelope.Body.Fault.faultstring`; else the parsed tree is the success
value (`soap.go` lines 85-96). -/
theorem c3_fault_classification (m : ValueMap) :
    (m "Envelope.Body.Fault.Reason.Text.#text" ≠ "" →
      faultCheck m =
        (none, some (SendError.soapFault (m "Envelope.Body.Fault.Reason.Text.#text"))))
    ∧ (m "Envelope.Body.Fault.Reason.Text.#text" = "" →
        m "Envelope.Body.Fault.faultstring" ≠ "" →
        faultCheck m =
          (none, some (SendError.soapFault (m "Envelope.Body.Fault.faultstring"))))
    ∧ (m "Envelope.Body.Fault.Reason.Text.#text" = "" →
        m "Envelope.Body.Fault.faultstring" = "" →
        faultCheck m = (some m, none)) := by
  refine ⟨?_, ?_, ?_⟩
  · intro h1
    simp [faultCheck, h1]
  · intro h1 h2
    simp [faultCheck, h1, h2]
  · intro h1 h2
    simp [faultCheck, h1, h2]

/-- Witness for C3: both-paths (SOAP 1.2 wins), SOAP 1.1 only, and clean
responses. -/
theorem c3_fault_classification_witness :
    faultCheck mapBoth =
      (none, some (SendError.soapFault (mapBoth "Envelope.Body.Fault.Reason.Text.#text")))
    ∧ faultCheck mapFaultstring =
      (none, some (SendError.soapFault (mapFaultstring "Envelope.Body.Fault.faultstring")))
    ∧ faultCheck mapClean = (some mapClean, none) :=
  ⟨(c3_fault_classification mapBoth).1 (by decide),
   (c3_fault_classification mapFaultstring).2.1 (by decide) (by decide),
   (c3_fault_classification mapClean).2.2 (by decide) (by decide)⟩

/-- C4: with an empty username the envelope has no Security element — and
no Header block at all unless the action is non-empty, in which case the
header holds only the `<Action>` element (`soap.go` lines 110-124). -/
theorem c4_no_user_no_security :
    (∀ (ext : Ext) (nonce : String) (now : GoTime) (soap : SOAP),
      soap.User = "" → soap.Action = "" →
      createRequest ext nonce now soap =
        cleanRequest (envelopeHead soap ++ "<s:Body>" ++ soap.Body ++ "</s:Body>" ++
          "</s:Envelope>"))
    ∧ (∀ (ext : Ext) (nonce : String) (now : GoTime) (soap : SOAP),
      soap.User = "" → soap.Action ≠ "" →
      createRequest ext nonce now soap =
        cleanRequest (envelopeHead soap ++ "<s:Header>" ++ actionXml soap.Action ++
          "</s:Header>" ++ "<s:Body>" ++ soap.Body ++ "</s:Body>" ++ "</s:Envelope>")) := by
  constructor
  · intro ext nonce now soap hu ha
    unfold createRequest
    rw [createRequestRaw_noUser_noAction ext nonce now soap ha hu]
  · intro ext nonce now soap hu ha
    unfold createRequest
    rw [createRequestRaw_noUser_action ext nonce now soap ha hu]

/-- Witness for C4 at concrete descriptors. -/
theorem c4_no_user_no_security_witness :
    createRequest extTrivial "n" 0 soapPlain =
      cleanRequest (envelopeHead soapPlain ++ "<s:Body>" ++ soapPlain.Body ++ "</s:Body>" ++
        "</s:Envelope>")
    ∧ createRequest extTrivial "n" 0 soapActionOnly =
      cleanRequest (envelopeHead soapActionOnly ++ "<s:Header>" ++
        actionXml soapActionOnly.Action ++ "</s:Header>" ++ "<s:Body>" ++
        soapActionOnly.Body ++ "</s:Body>" ++ "</s:Envelope>") :=
  ⟨c4_no_user_no_security.1 extTrivial "n" 0 soapPlain rfl rfl,
   c4_no_user_no_security.2 extTrivial "n" 0 soapActionOnly rfl (by decide)⟩

/-- C5: with both action and username non-empty, the header is exactly the
`<Action>` element (WS-Addressing namespace, `mustUnderstand="1"`, holding
the action URI — see `actionXml`) followed by the Security element; with an
empty action (and a username) the header holds only the Security element,
so the Action element is present exactly when the action is non-empty
(`soap.go` lines 111-124). -/
theorem c5_action_order :
    (∀ (ext : Ext) (nonce : String) (now : GoTime) (soap : SOAP),
      soap.Action ≠ "" → soap.User ≠ "" →
      createRequest ext nonce now soap =
        cleanRequest (envelopeHead soap ++ "<s:Header>" ++ actionXml soap.Action ++
          createUserToken ext nonce now soap ++ "</s:Header>" ++ "<s:Body>" ++
          soap.Body ++ "</s:Body>" ++ "</s:Envelope>"))
    ∧ (∀ (ext : Ext) (nonce : String) (now : GoTime) (soap : SOAP),
      soap.Action = "" → soap.User ≠ "" →
      createRequest ext nonce now soap =
        cleanRequest (envelopeHead soap ++ "<s:Header>" ++
          createUserToken ext nonce now soap ++ "</s:Header>" ++ "<s:Body>" ++
          soap.Body ++ "</s:Body>" ++ "</s:Envelope>")) := by
  constructor
  · intro ext nonce now soap ha hu
    unfold createRequest
    rw [createRequestRaw_user_action ext nonce now soap ha hu]
  · intro ext nonce now soap ha hu
    unfold createRequest
    rw [createRequestRaw_user_noAction ext nonce now soap ha hu]

/-- Witness for C5 at concrete descriptors. -/
theorem c5_action_order_witness :
    createRequest extTrivial "n" 3 soapAuthAction =
      cleanRequest (envelopeHead soapAuthAction ++ "<s:Header>" ++
        actionXml soapAuthAction.Action ++ createUserToken extTrivial "n" 3 soapAuthAction ++
        "</s:Header>" ++ "<s:Body>" ++ soapAuthAction.Body ++ "</s:Body>" ++ "</s:Envelope>")
    ∧ createRequest extTrivial "n" 3 soapAuth =
      cleanRequest (envelopeHead soapAuth ++ "<s:Header>" ++
        createUserToken extTrivial "n" 3 soapAuth ++ "</s:Header>" ++ "<s:Body>" ++
        soapAuth.Body ++ "</s:Body>" ++ "</s:Envelope>") :=
  ⟨c5_action_order.1 extTrivial "n" 3 soapAuthAction (by decide) (by decide),
   c5_action_order.2 extTrivial "n" 3 soapAuth rfl (by decide)⟩

/-- C6: the whitespace normalization applied to the envelope (first every
whitespace run between a closing `>` and an opening `<` becomes `><`, then
every remaining whitespace run becomes one space) is idempotent on every
string (`soap.go` lines 132-134). -/
theorem c6_clean_idempotent (s : String) :
    cleanRequest (cleanRequest s) = cleanRequest s := by
  have h1 : hasMatch (replWs (replTag s.data)) = false :=
    hasMatch_replWs_aux (replTag s.data).length (replTag s.data) (Nat.le_refl _)
      (hasMatch_replTag s.data)
  have h2 : replTag (replWs (replTag s.data)) = replWs (replTag s.data) :=
    replTag_of_hasMatch_false _ h1
  show String.mk (replWs (replTag (replWs (replTag s.data)))) =
    String.mk (replWs (replTag s.data))
  rw [h2, replWs_replWs]

set_option maxRecDepth 8192 in
/-- C7 as stated is false: the whitespace normalization is applied to the
whole envelope, body included, so a body containing a whitespace run is not
embedded verbatim — for the descriptor with body `"a  b"` the built
envelope does not contain `"a  b"` at all. -/
theorem c7_counterexample :
    hasSub ("a  b".data) ((createRequest extTrivial "n" 0 soapTwoSpace).data) = false := by
  decide

/-- C7 amended: the envelope *before whitespace normalization* contains the
caller-supplied body fragment verbatim between `<s:Body>` and `</s:Body>`,
with no escaping or re-parsing applied to it; the built envelope is exactly
that string with the global whitespace normalization applied (which may
collapse whitespace inside the body). -/
theorem c7_body_verbatim_raw (ext : Ext) (nonce : String) (now : GoTime) (soap : SOAP) :
    ∃ pre post,
      createRequestRaw ext nonce now soap =
        pre ++ ("<s:Body>" ++ soap.Body ++ "</s:Body>") ++ post
      ∧ createRequest ext nonce now soap = cleanRequest (createRequestRaw ext nonce now soap) := by
  refine ⟨envelopeBeforeBody ext nonce now soap, "</s:Envelope>", ?_, rfl⟩
  unfold createRequestRaw
  simp only [stringAppendAssoc]

/-- C8: when `url.Parse` rejects the endpoint address, `SendRequest`
returns the InvalidEndpoint error (`soap.go` lines 41-44) — and the result
is the same for every behavior of the transport, reader and parser
collaborators in `env`, i.e. no HTTP request is constructed or dispatched. -/
theorem c8_invalid_endpoint {Resp : Type} (env : NetEnv Resp) (ext : Ext) (nonce : String)
    (now : GoTime) (soap : SOAP) (xaddr : String) (e : String)
    (h : env.parseURL xaddr = Except.error e) :
    sendRequest env ext nonce now soap xaddr = (none, some (SendError.invalidEndpoint e)) := by
  unfold sendRequest
  dsimp only
  rw [h]

/-- Witness for C8: a concrete failing parse. -/
theorem c8_invalid_endpoint_witness :
    sendRequest envFail extTrivial "n" 0 soapPlain "http://bad" =
      (none, some (SendError.invalidEndpoint "parse error")) :=
  c8_invalid_endpoint envFail extTrivial "n" 0 soapPlain "http://bad" "parse error" rfl

/-- C9: every invocation of `SendRequest` yields exactly one meaningful
result: either a parsed tree and a nil error, or a nil tree and one error —
every `return` site of `soap.go` lines 37-97 is one of the two shapes. -/
theorem c9_result_exclusive {Resp : Type} (env : NetEnv Resp) (ext : Ext) (nonce : String)
    (now : GoTime) (soap : SOAP) (xaddr : String) :
    ((sendRequest env ext nonce now soap xaddr).1.isSome = true ∧
      (sendRequest env ext nonce now soap xaddr).2 = none)
    ∨ ((sendRequest env ext nonce now soap xaddr).1 = none ∧
      (sendRequest env ext nonce now soap xaddr).2.isSome = true) := by
  unfold sendRequest
  dsimp only
  split
  · right; exact ⟨rfl, rfl⟩
  · split
    · right; exact ⟨rfl, rfl⟩
    · split
      · right; exact ⟨rfl, rfl⟩
      · split
        · right; exact ⟨rfl, rfl⟩
        · split
          · right; exact ⟨rfl, rfl⟩
          · unfold faultCheck
            dsimp only
            split
            · right; exact ⟨rfl, rfl⟩
            · split
              · right; exact ⟨rfl, rfl⟩
              · left; exact ⟨rfl, rfl⟩

/-- C10: with an empty username the built envelope does not depend on the
generated nonce or on the clock reading — the per-request randomness and
time capture (`createUserToken`, `soap.go` lines 139-149) are only reached
on the non-empty-username branch (line 119), so envelope building is
deterministic. -/
theorem c10_no_user_deterministic (ext : Ext) (nonceA : String) (nowA : GoTime)
    (nonceB : String) (nowB : GoTime) (soap : SOAP) (hu : soap.User = "") :
    createRequest ext nonceA nowA soap = createRequest ext nonceB nowB soap := by
  unfold createRequest
  by_cases ha : soap.Action = ""
  · rw [createRequestRaw_noUser_noAction ext nonceA nowA soap ha hu,
      createRequestRaw_noUser_noAction ext nonceB nowB soap ha hu]
  · rw [createRequestRaw_noUser_action ext nonceA nowA soap ha hu,
      createRequestRaw_noUser_action ext nonceB nowB soap ha hu]

/-- Witness for C10: two invocations with different nonces and clock
readings. -/
theorem c10_no_user_deterministic_witness :
    createRequest extTrivial "nonceA" 11 soapPlain =
      createRequest extTrivial "nonceB" 22 soapPlain :=
  c10_no_user_deterministic extTrivial "nonceA" 11 "nonceB" 22 soapPlain rfl

end Onvif
